import Mathlib

/-
  Verification development for l5kit's `l5kit/data/map_api.py` (MapAPI).

  Shallow embedding conventions:
  * numpy float arrays are modelled as lists of exact rationals; all the
    arithmetic performed by the source (cumulative sums, linear spacing,
    piecewise-linear interpolation) is rational-valued when inputs are
    rational, so the embedding uses `Rat` throughout.
  * The external collaborators `pymap3d.enu2ecef` and
    `l5kit.geometry.transform_points` (the latter is repository code that is
    not part of the analysed source tree) are elementwise/pointwise maps on
    3d points; they are abstracted as an explicit function parameter
    (see `unpack_deltas_cm`).  Likewise the Euclidean norm used for the
    cumulative arc-length (`np.linalg.norm`) is irrational-valued and is
    abstracted as a function parameter (see `cumDistOf`); every theorem
    below holds for an arbitrary such function, hence in particular for
    the Euclidean one.
  * The protobuf schema (`proto/road_network_pb2`) is repository code that
    is not part of the analysed source tree; the element/payload data model
    is modelled from the specification (tagged `Modelled from the spec:`).
  * Python exceptions are modelled with explicit error sums (`Except`).
-/

/-- A 3d point with rational coordinates (one row of an `(N, 3)` numpy
array of the source). -/
structure Point3 where
  x : ℚ
  y : ℚ
  z : ℚ
deriving DecidableEq, Repr

/-- Default point, used only as the junk value of total list accessors. -/
def Point3.origin : Point3 := ⟨0, 0, 0⟩

/-- Componentwise difference, modelling a row of `np.diff(xyz, axis=0)`. -/
def Point3.sub (p q : Point3) : Point3 := ⟨p.x - q.x, p.y - q.y, p.z - q.z⟩

/-- Componentwise average, modelling a row of `(xyz_left + xyz_right) / 2`
in `get_lane_as_interpolation`. -/
def Point3.avg (p q : Point3) : Point3 :=
  ⟨(p.x + q.x) / 2, (p.y + q.y) / 2, (p.z + q.z) / 2⟩

/-- Running cumulative sum starting from accumulator `a`
(helper for `cumsum`). -/
def cumsumFrom (a : ℚ) : List ℚ → List ℚ
  | [] => []
  | v :: rest => (a + v) :: cumsumFrom (a + v) rest

/-- Model of `np.cumsum` on a 1d float array. -/
def cumsum (l : List ℚ) : List ℚ := cumsumFrom 0 l

/-- Model of Python `int(step)` on a float: truncation toward zero, i.e.
the numerator T-divided by the denominator of the reduced fraction (used in
the `INTER_ENSURE_LEN` branch of `MapAPI.interpolate`).  `pyInt_spec` below
restates it through floors. -/
def pyInt (q : ℚ) : ℤ := Int.tdiv q.num (q.den : ℤ)

/-- Ceiling of a rational as `-(⌊-q⌋)`, written out on the reduced fraction
so that it is kernel-computable; `ratCeil_eq_ceil` below identifies it with
`Int.ceil`. -/
def ratCeil (q : ℚ) : ℤ := -((-q.num) / (q.den : ℤ))

/-- Model of `np.linspace(start, stop, num)`: `num` evenly spaced samples,
inclusive of both endpoints (exact in rational arithmetic; numpy forces
`y[-1] = stop`, which holds definitionally here). -/
def npLinspace (start stop : ℚ) (num : ℕ) : List ℚ :=
  (List.range num).map (fun (i : ℕ) => start + (i : ℚ) * ((stop - start) / ((num : ℚ) - 1)))

/-- Model of `np.arange(start, stop, step)` for the positive `step` used by
the `INTER_METER` branch of `MapAPI.interpolate`: values
`start + i * step` for `0 ≤ i < ⌈(stop - start) / step⌉`. -/
def npArange (start stop step : ℚ) : List ℚ :=
  (List.range (ratCeil ((stop - start) / step)).toNat).map
    (fun (i : ℕ) => start + (i : ℚ) * step)

/-- Largest index `j` with `xp[j] ≤ x`, or `none` when every entry exceeds
`x`.  For a monotonically non-decreasing `xp` this is exactly the interval
index numpy's `binary_search_with_guess` produces inside `np.interp`
(`-1` is rendered as `none`, and numpy's out-of-range sentinel `len(xp)`
collapses onto `len(xp) - 1`, which receives the same value `fp[-1]`). -/
def largestLE : List ℚ → ℚ → Option ℕ
  | [], _ => none
  | a :: rest, x =>
    match largestLE rest x with
    | some j => some (j + 1)
    | none => if a ≤ x then some 0 else none

/-- Model of a single sample of `np.interp(x, xp, fp)` (numpy
`arr_interp`): clamp below `xp[0]` to `fp[0]`, clamp at or above
`xp[-1]` to `fp[-1]`, return `fp[j]` on an exact knot hit, and otherwise
interpolate linearly on the interval `[xp[j], xp[j+1]]`. -/
def npInterpOne (xp fp : List ℚ) (x : ℚ) : ℚ :=
  match largestLE xp x with
  | none => fp.headD 0
  | some j =>
    if j = xp.length - 1 then fp.getD j 0
    else if xp.getD j 0 = x then fp.getD j 0
    else
      fp.getD j 0 +
        ((fp.getD (j + 1) 0 - fp.getD j 0) / (xp.getD (j + 1) 0 - xp.getD j 0)) *
          (x - xp.getD j 0)

/-- One interpolated output row of `MapAPI.interpolate`: the three
coordinate axes are interpolated independently against
`(cum_dist, xyz[:, k])`, as in the source's three `np.interp` calls. -/
def interpPoint (cum_dist : List ℚ) (xyz : List Point3) (s : ℚ) : Point3 :=
  ⟨npInterpOne cum_dist (xyz.map Point3.x) s,
   npInterpOne cum_dist (xyz.map Point3.y) s,
   npInterpOne cum_dist (xyz.map Point3.z) s⟩

/-- The value of `InterpolationMethod.INTER_METER` (an `IntEnum`). -/
def INTER_METER : ℤ := 0

/-- The value of `InterpolationMethod.INTER_ENSURE_LEN` (an `IntEnum`). -/
def INTER_ENSURE_LEN : ℤ := 1

/-- Python exceptions that `MapAPI.interpolate` (and the numpy calls it
makes) can raise: the two `assert` statements, the final
`raise NotImplementedError` (the spec's `UnsupportedMethodError`),
`IndexError` from `cum_dist[0]` on an empty array, and `ValueError` from
`np.interp` when `xp` and `fp` have different lengths. -/
inductive InterpErr
  | assertionError
  | notImplementedError
  | indexError
  | valueError
deriving DecidableEq, Repr

/-- Model of `MapAPI.interpolate(xyz, cum_dist, step, method)`.  The
method is an `IntEnum` value, hence an integer.  Mirrors the source's
control flow: the `INTER_ENSURE_LEN` branch truncates `step` to an int and
asserts it is `> 1`, then samples `np.linspace(cum_dist[0], cum_dist[-1],
step)`; the `INTER_METER` branch asserts `step > 0` and samples
`np.arange(cum_dist[0], cum_dist[-1], step)`; any other method raises
`NotImplementedError`.  Accessing `cum_dist[0]` of an empty array raises
`IndexError`, and `np.interp` raises `ValueError` when `len(xyz)` differs
from `len(cum_dist)`. -/
def interpolate (xyz : List Point3) (cum_dist : List ℚ) (step : ℚ) (method : ℤ) :
    Except InterpErr (List Point3) :=
  if method = INTER_ENSURE_LEN then
    let stepN := pyInt step
    if stepN ≤ 1 then Except.error InterpErr.assertionError
    else if cum_dist.isEmpty then Except.error InterpErr.indexError
    else if xyz.length ≠ cum_dist.length then Except.error InterpErr.valueError
    else
      Except.ok
        ((npLinspace (cum_dist.headD 0) (cum_dist.getLastD 0) stepN.toNat).map
          (interpPoint cum_dist xyz))
  else if method = INTER_METER then
    if step ≤ 0 then Except.error InterpErr.assertionError
    else if cum_dist.isEmpty then Except.error InterpErr.indexError
    else if xyz.length ≠ cum_dist.length then Except.error InterpErr.valueError
    else
      Except.ok
        ((npArange (cum_dist.headD 0) (cum_dist.getLastD 0) step).map
          (interpPoint cum_dist xyz))
  else Except.error InterpErr.notImplementedError

/-- Consecutive differences of a polyline, modelling
`np.diff(xyz, axis=0)`. -/
def diffs (xyz : List Point3) : List Point3 :=
  (xyz.zip xyz.tail).map (fun pr => Point3.sub pr.2 pr.1)

/-- Cumulative arc length of a polyline, prefixed with `0`, modelling
`np.insert(np.cumsum(np.linalg.norm(np.diff(xyz, axis=0), axis=-1)), 0, 0)`
in `get_lane_as_interpolation`.  The per-segment length `np.linalg.norm`
(a square root, hence irrational-valued) is the abstract parameter
`norm3`; every theorem below about `cumDistOf` holds for an arbitrary
`norm3`, in particular for the Euclidean norm. -/
def cumDistOf (norm3 : Point3 → ℚ) (xyz : List Point3) : List ℚ :=
  0 :: cumsum ((diffs xyz).map norm3)

/-- The dict returned by `get_lane_coords` / `get_lane_as_interpolation`
(keys `xyz_left`, `xyz_right`, and, after interpolation, `midlane`). -/
structure LaneDict where
  xyz_left : List Point3
  xyz_right : List Point3
  midlane : List Point3
deriving DecidableEq, Repr

/-- Model of `MapAPI.get_lane_as_interpolation(element_id, step, method)`,
parameterised by the lane's already decoded boundary coordinates
(`get_lane_coords` output `xyz_left` / `xyz_right`) and by the segment
norm `norm3` (see `cumDistOf`).  Faithful to the source: the returned
`xyz_left` / `xyz_right` are the requested resamples, while for any method
other than `INTER_ENSURE_LEN` the midlane is built by resampling the
ORIGINAL boundary arrays (the local variables `xyz_left` / `xyz_right`,
which the source never overwrote) with `INTER_ENSURE_LEN` at
`mid_steps = max(len(xyz_left), len(xyz_right))`, the max of the ORIGINAL
lengths, and averaging pointwise.  The two averaged arrays always have
equal length `mid_steps`, so `zipWith` matches numpy's elementwise `+`. -/
def get_lane_as_interpolation (norm3 : Point3 → ℚ)
    (xyz_left xyz_right : List Point3) (step : ℚ) (method : ℤ) :
    Except InterpErr LaneDict := do
  let distances_left := cumDistOf norm3 xyz_left
  let distances_right := cumDistOf norm3 xyz_right
  let left_res ← interpolate xyz_left distances_left step method
  let right_res ← interpolate xyz_right distances_right step method
  if method ≠ INTER_ENSURE_LEN then
    let mid_steps := max xyz_left.length xyz_right.length
    let l2 ← interpolate xyz_left distances_left (mid_steps : ℚ) INTER_ENSURE_LEN
    let r2 ← interpolate xyz_right distances_right (mid_steps : ℚ) INTER_ENSURE_LEN
    pure ⟨left_res, right_res, List.zipWith Point3.avg l2 r2⟩
  else
    pure ⟨left_res, right_res, List.zipWith Point3.avg left_res right_res⟩

/-- Modelled from the spec: the protobuf `GeoFrame` origin, latitude and
longitude stored as fixed-point integers scaled by `10^7`
(`lat_e7`, `lng_e7`); the protobuf schema itself is not in the analysed
source tree. -/
structure GeoOrigin where
  lat_e7 : ℤ
  lng_e7 : ℤ
deriving DecidableEq, Repr

/-- Modelled from the spec: the protobuf `GeoFrame` (an origin point). -/
structure GeoFrame where
  origin : GeoOrigin
deriving DecidableEq, Repr

/-- Model of `MapAPI._undo_e7`. -/
def undo_e7 (value : ℚ) : ℚ := value / 10000000

/-- The only failure the numpy pipeline inside `unpack_deltas_cm` can
produce: a generic numpy `ValueError` from broadcasting/stacking
incompatible array lengths.  The source contains no shape validation of
its own (in particular no `ShapeError`). -/
inductive UnpackErr
  | numpyError
deriving DecidableEq, Repr

/-- Pointwise zip of the three coordinate axes, modelling
`np.stack(..., axis=-1)` on three equal-length 1d arrays. -/
def zip3 : List ℚ → List ℚ → List ℚ → List Point3
  | a :: as, b :: bs, c :: cs => Point3.mk a b c :: zip3 as bs cs
  | _, _, _ => []

/-- Model of `MapAPI.unpack_deltas_cm(dx, dy, dz, frame)`.  The local
tangent-plane coordinates are the running cumulative sums of the deltas
divided by 100 (`np.cumsum(np.asarray(d) / 100)`).  The subsequent
`pm.enu2ecef(x, y, z, frame_lat, frame_lng, 0)` (external geodesy
library) followed by `transform_points(xyz, self.ecef_to_world)`
(repository code outside the analysed tree; per the spec a fixed 4x4
homogeneous affine map) is an elementwise/pointwise conversion of each
local point, abstracted here as the parameter `enuToWorld` applied to the
frame origin (in degrees) and each local point.  The function performs no
shape validation: with equal-length inputs (any length, including zero)
the elementwise pipeline succeeds; mismatched lengths are only surfaced
by numpy broadcasting/stacking as a generic `ValueError`, never as a
`ShapeError`. -/
def unpack_deltas_cm (enuToWorld : ℚ → ℚ → Point3 → Point3)
    (dx dy dz : List ℤ) (frame : GeoFrame) : Except UnpackErr (List Point3) :=
  let x := cumsum (dx.map (fun (v : ℤ) => (v : ℚ) / 100))
  let y := cumsum (dy.map (fun (v : ℤ) => (v : ℚ) / 100))
  let z := cumsum (dz.map (fun (v : ℤ) => (v : ℚ) / 100))
  let frame_lat := undo_e7 ((frame.origin.lat_e7 : ℚ))
  let frame_lng := undo_e7 ((frame.origin.lng_e7 : ℚ))
  if dx.length = dy.length ∧ dy.length = dz.length then
    Except.ok ((zip3 x y z).map (enuToWorld frame_lat frame_lng))
  else Except.error UnpackErr.numpyError

/-- Modelled from the spec: one boundary of a lane, three equal-length
sequences of signed centimeter deltas (protobuf schema not in the
analysed source tree). -/
structure Boundary where
  vertex_deltas_x_cm : List ℤ
  vertex_deltas_y_cm : List ℤ
  vertex_deltas_z_cm : List ℤ
deriving DecidableEq, Repr

/-- Modelled from the spec: the `Lane` payload variant: two boundaries
plus a geo frame and associated traffic-control ids. -/
structure LaneData where
  left_boundary : Boundary
  right_boundary : Boundary
  geo_frame : GeoFrame
  traffic_controls : List String
deriving DecidableEq, Repr

/-- The five per-colour face-presence flags of a traffic-signal fixture
(`HasField` on `signal_{colour}_face`, `signal_left_arrow_{colour}_face`,
`signal_right_arrow_{colour}_face`, `signal_upper_left_arrow_{colour}_face`,
`signal_upper_right_arrow_{colour}_face`). -/
structure FaceFlags where
  face : Bool
  left_arrow : Bool
  right_arrow : Bool
  upper_left_arrow : Bool
  upper_right_arrow : Bool
deriving DecidableEq, Repr

/-- The traffic-light colours for which the protobuf schema defines face
fields (the source interpolates the colour name into the field name). -/
inductive Colour
  | red
  | yellow
  | green
deriving DecidableEq, Repr

/-- Modelled from the spec: the `TrafficControlElement` payload variant:
an optional pedestrian-crosswalk sub-message (`HasField` presence), a
polygon as delta sequences, a geo frame, and per-colour signal-face
presence flags (protobuf schema not in the analysed source tree). -/
structure TrafficControlElement where
  pedestrian_crosswalk : Bool
  points_x_deltas_cm : List ℤ
  points_y_deltas_cm : List ℤ
  points_z_deltas_cm : List ℤ
  geo_frame : GeoFrame
  red_faces : FaceFlags
  yellow_faces : FaceFlags
  green_faces : FaceFlags
deriving DecidableEq, Repr

/-- The face flags of a traffic-control element for a given colour. -/
def colourFaces (t : TrafficControlElement) : Colour → FaceFlags
  | Colour.red => t.red_faces
  | Colour.yellow => t.yellow_faces
  | Colour.green => t.green_faces

/-- Modelled from the spec: the oneof payload of a map element: exactly
one variant (or none, `unset`); variants other than `Lane` and
`TrafficControlElement` are collapsed into `other`. -/
inductive ElementPayload
  | lane (l : LaneData)
  | trafficControlElement (t : TrafficControlElement)
  | other
  | unset
deriving DecidableEq, Repr

/-- Modelled from the spec: a map element: a canonical (decoded) id and a
oneof payload.  Ids are stored here already decoded to text, as produced
by `MapAPI.id_as_str` during index construction. -/
structure MapElement where
  id : String
  element : ElementPayload
deriving DecidableEq, Repr

/-- Junk element used only as the default of total list accessors. -/
def dfltEl : MapElement := ⟨"", ElementPayload.unset⟩

/-- Model of the `MapAPI` object after construction: the flat element
sequence (`self.elements`).  The id lookup table `self.ids_to_el` is the
derived function `ids_to_el` below. -/
structure MapAPI where
  elements : List MapElement
deriving DecidableEq, Repr

/-- Model of the lookup table
`self.ids_to_el = {id_as_str(el.id): idx for idx, el in enumerate(...)}`:
for a given key, the dict comprehension keeps the LAST matching position
(later elements overwrite earlier ones). -/
def ids_to_el (api : MapAPI) (s : String) : Option ℕ :=
  api.elements.enum.foldl
    (fun acc pr => if pr.2.id = s then some pr.1 else acc) none

/-- Python exceptions that `MapAPI.__getitem__` can raise: `KeyError`
from the dict lookup, `IndexError` from list indexing,
`UnicodeDecodeError` from `bytes.decode`, and `TypeError` for an
unsupported key type (the last is unreachable for the three key forms
modelled here). -/
inductive GetErr
  | keyError
  | indexError
  | unicodeDecodeError
  | typeError
deriving DecidableEq, Repr

/-- Model of Python list indexing `elements[i]` with an `int` key:
indices in `[0, len)` are direct, indices in `[-len, 0)` count from the
end, everything else raises `IndexError`. -/
def pyListGet (l : List MapElement) (i : ℤ) : Except GetErr MapElement :=
  let n : ℤ := l.length
  let j : ℤ := if i < 0 then n + i else i
  if 0 ≤ j ∧ j < n then
    match l[j.toNat]? with
    | some e => Except.ok e
    | none => Except.error GetErr.indexError
  else Except.error GetErr.indexError

/-- Model of the `str` branch of `MapAPI.__getitem__`:
`self.elements[self.ids_to_el[item]]` (`KeyError` when the id is absent
from the lookup table). -/
def getByStr (api : MapAPI) (s : String) : Except GetErr MapElement :=
  match ids_to_el api s with
  | some idx =>
    match api.elements[idx]? with
    | some e => Except.ok e
    | none => Except.error GetErr.indexError
  | none => Except.error GetErr.keyError

/-- A key passed to `MapAPI.__getitem__`: an `int` position, a `str` id,
or a `bytes` id.  A byte identifier is represented by the string it
decodes to under UTF-8 (the key is the byte sequence `s.toUTF8`); byte
sequences that are not valid UTF-8 (which raise `UnicodeDecodeError` in
the source before any table lookup) are outside this embedding. -/
inductive GetKey
  | pos (i : ℤ)
  | strId (s : String)
  | bytesId (s : String)
deriving DecidableEq, Repr

/-- Model of `MapAPI.__getitem__` for the three supported key forms. -/
def MapAPI.getItem (api : MapAPI) : GetKey → Except GetErr MapElement
  | GetKey.pos i => pyListGet api.elements i
  | GetKey.strId s => getByStr api s
  | GetKey.bytesId s => getByStr api s

/-- Model of `MapAPI.is_lane`: the payload oneof holds the `lane`
variant. -/
def is_lane (element : MapElement) : Bool :=
  match element.element with
  | ElementPayload.lane _ => true
  | _ => false

/-- Model of `MapAPI.is_crosswalk`: the payload oneof holds the
`traffic_control_element` variant, the element has the
`pedestrian_crosswalk` field, and its `points_x_deltas_cm` sequence is
non-empty (Python truthiness of a repeated field). -/
def is_crosswalk (element : MapElement) : Bool :=
  match element.element with
  | ElementPayload.trafficControlElement t =>
      t.pedestrian_crosswalk && !t.points_x_deltas_cm.isEmpty
  | _ => false

/-- Model of `MapAPI.is_traffic_face_colour(element_id, colour)`:
resolve the element by string id (propagating `KeyError`), return
`False` when the payload is not a `traffic_control_element`, else test
the five per-colour face-presence flags. -/
def is_traffic_face_colour (api : MapAPI) (element_id : String)
    (colour : Colour) : Except GetErr Bool :=
  match getByStr api element_id with
  | Except.error e => Except.error e
  | Except.ok el =>
    match el.element with
    | ElementPayload.trafficControlElement t =>
      let f := colourFaces t colour
      Except.ok (f.face || f.left_arrow || f.right_arrow ||
        f.upper_left_arrow || f.upper_right_arrow)
    | _ => Except.ok false


/-
  Concrete instances used by witnesses and counterexamples.
-/

/-- Concrete segment norm for the axis-aligned lane instances below: every
difference vector of those lanes has the form `(d, 0, 0)` with `d ≥ 0`, on
which the Euclidean norm `np.linalg.norm` equals `d = v.x`, so on those
inputs `exNorm` computes exactly the source's segment lengths. -/
def exNorm : Point3 → ℚ := fun v => v.x

/-- Left boundary of the concrete lane: two points 10 meters apart. -/
def exL : List Point3 := [⟨0, 0, 0⟩, ⟨10, 0, 0⟩]

/-- Right boundary of the concrete lane: two points 10 meters apart. -/
def exR : List Point3 := [⟨0, 1, 0⟩, ⟨10, 1, 0⟩]

/-- A concrete lane element. -/
def laneEl : MapElement :=
  ⟨"L1", ElementPayload.lane
    ⟨⟨[100, 0], [0, 100], [0, 0]⟩, ⟨[100, 0], [0, 100], [0, 0]⟩, ⟨⟨0, 0⟩⟩, []⟩⟩

/-- Face flags with only the plain face present. -/
def faceOnly : FaceFlags := ⟨true, false, false, false, false⟩

/-- Face flags with nothing present. -/
def noFaces : FaceFlags := ⟨false, false, false, false, false⟩

/-- A concrete traffic-control element: a red traffic-light face (not a
crosswalk). -/
def tceData : TrafficControlElement :=
  ⟨false, [], [], [], ⟨⟨0, 0⟩⟩, faceOnly, noFaces, noFaces⟩

/-- The traffic-control element wrapped as a map element with id `tl1`. -/
def tceEl : MapElement := ⟨"tl1", ElementPayload.trafficControlElement tceData⟩

/-- A concrete two-element index: a lane at position 0, a traffic light at
position 1. -/
def sampleApi : MapAPI := ⟨[laneEl, tceEl]⟩

/-
  Helper lemmas (not tied to any single claim).
-/

theorem getLastD_eq_of_ne_nil {α : Type} (l : List α) (d d2 : α) (h : l ≠ []) :
    l.getLastD d = l.getLastD d2 := by
  rw [List.getLastD_eq_getLast?, List.getLastD_eq_getLast?]
  obtain ⟨b, hb⟩ := Option.isSome_iff_exists.mp (List.getLast?_isSome.mpr h)
  rw [hb]
  rfl

theorem getD_length_sub_one {α : Type} (l : List α) (d : α) (h : l ≠ []) :
    l.getD (l.length - 1) d = l.getLastD d := by
  rw [List.getD_eq_getElem?_getD, List.getLastD_eq_getLast?, List.getLast?_eq_getElem?]

theorem headD_map {α β : Type} (f : α → β) (l : List α) (d : β) (d2 : α) (h : l ≠ []) :
    (l.map f).headD d = f (l.headD d2) := by
  cases l with
  | nil => exact absurd rfl h
  | cons a t => simp

theorem getD_map {α β : Type} (f : α → β) (l : List α) (j : ℕ) (d : β) (d2 : α)
    (hj : j < l.length) : (l.map f).getD j d = f (l.getD j d2) := by
  rw [List.getD_eq_getElem?_getD, List.getD_eq_getElem?_getD, List.getElem?_map]
  rw [List.getElem?_eq_getElem hj]
  rfl

theorem getLastD_map {α β : Type} (f : α → β) (l : List α) (d : β) (d2 : α) (h : l ≠ []) :
    (l.map f).getLastD d = f (l.getLastD d2) := by
  have hne : l.map f ≠ [] := by
    intro h2
    exact h (List.map_eq_nil.mp h2)
  have hlen : 1 ≤ l.length := List.length_pos.mpr h
  rw [← getD_length_sub_one (l.map f) d hne, ← getD_length_sub_one l d2 h, List.length_map]
  exact getD_map f l (l.length - 1) d d2 (by omega)

theorem getD_map_point {α : Type} (f : Point3 → α) (l : List Point3) (j : ℕ) (d : α)
    (hj : j < l.length) : (l.map f).getD j d = f (l.getD j Point3.origin) :=
  getD_map f l j d Point3.origin hj

theorem cumsumFrom_length (a : ℚ) (l : List ℚ) : (cumsumFrom a l).length = l.length := by
  induction l generalizing a with
  | nil => rfl
  | cons v rest ih => simp [cumsumFrom, ih]

theorem cumsum_length (l : List ℚ) : (cumsum l).length = l.length :=
  cumsumFrom_length 0 l

theorem cumsumFrom_getD (a : ℚ) (l : List ℚ) (i : ℕ) (hi : i < l.length) :
    (cumsumFrom a l).getD i 0 = a + (l.take (i + 1)).sum := by
  induction l generalizing a i with
  | nil => simp at hi
  | cons v rest ih =>
    cases i with
    | zero => simp [cumsumFrom]
    | succ k =>
      simp only [cumsumFrom, List.getD_cons_succ, List.take_succ_cons, List.sum_cons]
      rw [ih (a + v) k (by simpa using Nat.lt_of_succ_lt_succ hi)]
      ring

theorem cumsum_getD (l : List ℚ) (i : ℕ) (hi : i < l.length) :
    (cumsum l).getD i 0 = (l.take (i + 1)).sum := by
  rw [cumsum, cumsumFrom_getD 0 l i hi, zero_add]

theorem npLinspace_length (a b : ℚ) (n : ℕ) : (npLinspace a b n).length = n := by
  rw [npLinspace, List.length_map, List.length_range]

theorem npLinspace_ne_nil (a b : ℚ) (n : ℕ) (hn : 1 ≤ n) : npLinspace a b n ≠ [] := by
  intro h
  have h2 := npLinspace_length a b n
  rw [h] at h2
  simp only [List.length_nil] at h2
  omega

theorem npLinspace_getD (a b : ℚ) (n i : ℕ) (hi : i < n) :
    (npLinspace a b n).getD i 0 = a + (i : ℚ) * ((b - a) / ((n : ℚ) - 1)) := by
  rw [npLinspace, List.getD_eq_getElem?_getD, List.getElem?_map, List.getElem?_range hi]
  rfl

theorem npLinspace_headD (a b : ℚ) (n : ℕ) (hn : 1 ≤ n) :
    (npLinspace a b n).headD 0 = a := by
  have h0 : (npLinspace a b n).headD 0 = (npLinspace a b n).getD 0 0 := by
    cases h : npLinspace a b n with
    | nil => exact absurd h (npLinspace_ne_nil a b n hn)
    | cons c t => rfl
  rw [h0, npLinspace_getD a b n 0 (by omega)]
  push_cast
  ring

theorem npLinspace_getLastD (a b : ℚ) (n : ℕ) (hn : 2 ≤ n) :
    (npLinspace a b n).getLastD 0 = b := by
  have hne : npLinspace a b n ≠ [] := npLinspace_ne_nil a b n (by omega)
  have hlen := npLinspace_length a b n
  rw [← getD_length_sub_one _ _ hne, hlen, npLinspace_getD a b n (n - 1) (by omega)]
  have h1 : ((n - 1 : ℕ) : ℚ) = (n : ℚ) - 1 := by
    rw [Nat.cast_sub (by omega : 1 ≤ n)]
    push_cast
    ring
  have h2 : (n : ℚ) - 1 ≠ 0 := by
    have h3 : (2 : ℚ) ≤ (n : ℚ) := by exact_mod_cast hn
    linarith
  rw [h1]
  field_simp

theorem pyInt_spec (q : ℚ) : pyInt q = if 0 ≤ q then ⌊q⌋ else -⌊-q⌋ := by
  rw [pyInt]
  by_cases h : 0 ≤ q
  · rw [if_pos h, Rat.floor_def, Int.tdiv_eq_ediv (Rat.num_nonneg.mpr h) (by positivity)]
  · rw [if_neg h, Rat.floor_def]
    have h6 : q.num < 0 := Rat.num_neg.mpr (lt_of_not_le h)
    rw [Rat.neg_num q, Rat.neg_den q]
    rw [← Int.tdiv_eq_ediv (by omega : (0 : ℤ) ≤ -q.num) (by positivity)]
    rw [Int.neg_tdiv, neg_neg]

theorem pyInt_natCast (n : ℕ) : pyInt ((n : ℕ) : ℚ) = (n : ℤ) := by
  rw [pyInt, Rat.num_natCast, Rat.den_natCast]
  exact Int.tdiv_one ..

theorem ratCeil_eq_ceil (q : ℚ) : ratCeil q = ⌈q⌉ := by
  have h1 : ⌊-q⌋ = -⌈q⌉ := Int.floor_neg
  have h2 : ⌊-q⌋ = (-q).num / ((-q).den : ℤ) := Rat.floor_def
  rw [Rat.neg_num q, Rat.neg_den q] at h2
  rw [ratCeil, ← h2, h1, neg_neg]

theorem npArange_mem (start stop step : ℚ) (hstep : 0 < step) (p : ℚ)
    (hp : p ∈ npArange start stop step) : start ≤ p ∧ p < stop := by
  simp only [npArange, List.mem_map, List.mem_range] at hp
  obtain ⟨i, hi, rfl⟩ := hp
  constructor
  · have h0 : (0 : ℚ) ≤ (i : ℚ) * step :=
      mul_nonneg (Nat.cast_nonneg i) (le_of_lt hstep)
    linarith
  · have h1 : ((i : ℕ) : ℤ) < ratCeil ((stop - start) / step) := Int.lt_toNat.mp hi
    rw [ratCeil_eq_ceil] at h1
    have h2 : (((i : ℕ) : ℤ) : ℚ) < (stop - start) / step := Int.lt_ceil.mp h1
    have h3 : (i : ℚ) * step < stop - start := by
      have h4 := (lt_div_iff hstep).mp h2
      push_cast at h4
      linarith
    linarith

theorem largestLE_le (xp : List ℚ) (x : ℚ) (j : ℕ) (h : largestLE xp x = some j) :
    j < xp.length ∧ xp.getD j 0 ≤ x := by
  induction xp generalizing j with
  | nil => simp [largestLE] at h
  | cons a rest ih =>
    rw [largestLE] at h
    cases hr : largestLE rest x with
    | some j2 =>
      rw [hr] at h
      simp only [Option.some.injEq] at h
      obtain ⟨h1, h2⟩ := ih j2 hr
      subst h
      exact ⟨by simpa using Nat.succ_lt_succ h1, by simpa using h2⟩
    | none =>
      rw [hr] at h
      by_cases ha : a ≤ x
      · simp only [ha, if_true, Option.some.injEq] at h
        subst h
        simpa using ha
      · simp [ha] at h

theorem largestLE_getLast (xp : List ℚ) (x : ℚ) (hne : xp ≠ []) (h : xp.getLastD 0 ≤ x) :
    largestLE xp x = some (xp.length - 1) := by
  induction xp with
  | nil => exact absurd rfl hne
  | cons a rest ih =>
    cases rest with
    | nil =>
      simp only [List.getLastD_cons, List.getLastD_nil] at h
      simp [largestLE, h]
    | cons b t =>
      have hlast : (b :: t).getLastD 0 ≤ x := by
        have h1 : (a :: b :: t).getLastD 0 = (b :: t).getLastD a := List.getLastD_cons a 0 (b :: t)
        have h2 : (b :: t).getLastD a = (b :: t).getLastD 0 :=
          getLastD_eq_of_ne_nil (b :: t) a 0 (by simp)
        rw [h1, h2] at h
        exact h
      have ihr := ih (by simp) hlast
      rw [largestLE, ihr]
      simp

theorem largestLE_isSome (xp : List ℚ) (x : ℚ) (hne : xp ≠ []) (hhead : xp.headD 0 ≤ x) :
    ∃ j, largestLE xp x = some j := by
  cases xp with
  | nil => exact absurd rfl hne
  | cons a rest =>
    simp only [List.headD_cons] at hhead
    rw [largestLE]
    cases hr : largestLE rest x with
    | some j => exact ⟨j + 1, rfl⟩
    | none => exact ⟨0, by simp [hhead]⟩

theorem pairwise_headD_le (xp : List ℚ) (hmono : xp.Pairwise (fun a b => a ≤ b))
    (j : ℕ) (hj : j < xp.length) : xp.headD 0 ≤ xp.getD j 0 := by
  cases xp with
  | nil => simp at hj
  | cons a rest =>
    cases j with
    | zero => simp
    | succ k =>
      simp only [List.headD_cons, List.getD_cons_succ]
      have hk : k < rest.length := by simpa using Nat.lt_of_succ_lt_succ hj
      have hmem : rest.getD k 0 ∈ rest := by
        rw [List.getD_eq_getElem?_getD, List.getElem?_eq_getElem hk]
        exact List.getElem_mem hk
      exact (List.pairwise_cons.mp hmono).1 _ hmem

theorem npInterpOne_at_hit (xp : List ℚ) (x : ℚ) (j : ℕ)
    (hj : largestLE xp x = some j) (hhit : xp.getD j 0 = x) (fp : List ℚ) :
    npInterpOne xp fp x = fp.getD j 0 := by
  rw [npInterpOne, hj]
  have hhit2 : xp[j]?.getD 0 = x := by
    rw [← List.getD_eq_getElem?_getD]
    exact hhit
  by_cases hlast : j = xp.length - 1
  · simp [hlast]
  · simp [hlast, hhit2]

theorem npInterpOne_head (xp : List ℚ) (hmono : xp.Pairwise (fun a b => a ≤ b))
    (hne : xp ≠ []) :
    ∃ j, j < xp.length ∧ xp.getD j 0 = xp.headD 0 ∧
      ∀ fp : List ℚ, npInterpOne xp fp (xp.headD 0) = fp.getD j 0 := by
  obtain ⟨j, hj⟩ := largestLE_isSome xp (xp.headD 0) hne le_rfl
  obtain ⟨hjlen, hle⟩ := largestLE_le xp (xp.headD 0) j hj
  have hge := pairwise_headD_le xp hmono j hjlen
  have heq : xp.getD j 0 = xp.headD 0 := le_antisymm hle hge
  exact ⟨j, hjlen, heq, npInterpOne_at_hit xp (xp.headD 0) j hj heq⟩

theorem npInterpOne_getLast (xp : List ℚ) (hne : xp ≠ []) (fp : List ℚ) :
    npInterpOne xp fp (xp.getLastD 0) = fp.getD (xp.length - 1) 0 := by
  have hj := largestLE_getLast xp (xp.getLastD 0) hne le_rfl
  rw [npInterpOne, hj]
  simp

theorem interpPoint_headD (cd : List ℚ) (xyz : List Point3)
    (hmono : cd.Pairwise (fun a b => a ≤ b)) (hne : cd ≠ [])
    (hlen : xyz.length = cd.length)
    (hcons : ∀ j, j < cd.length → cd.getD j 0 = cd.headD 0 →
      xyz.getD j Point3.origin = xyz.headD Point3.origin) :
    interpPoint cd xyz (cd.headD 0) = xyz.headD Point3.origin := by
  obtain ⟨j, hjlen, heq, hval⟩ := npInterpOne_head cd hmono hne
  have hjx : j < xyz.length := by rw [hlen]; exact hjlen
  have hxyz := hcons j hjlen heq
  rw [interpPoint, hval (xyz.map Point3.x), hval (xyz.map Point3.y), hval (xyz.map Point3.z)]
  rw [getD_map_point Point3.x xyz j 0 hjx, getD_map_point Point3.y xyz j 0 hjx,
      getD_map_point Point3.z xyz j 0 hjx, hxyz]

theorem interpPoint_getLastD (cd : List ℚ) (xyz : List Point3)
    (hne : cd ≠ []) (hlen : xyz.length = cd.length) :
    interpPoint cd xyz (cd.getLastD 0) = xyz.getLastD Point3.origin := by
  have hxne : xyz ≠ [] := by
    intro h0
    rw [h0] at hlen
    simp only [List.length_nil] at hlen
    exact hne (List.length_eq_zero.mp hlen.symm)
  have hjx : cd.length - 1 < xyz.length := by
    rw [hlen]
    have := List.length_pos.mpr hne
    omega
  rw [interpPoint, npInterpOne_getLast cd hne (xyz.map Point3.x),
      npInterpOne_getLast cd hne (xyz.map Point3.y),
      npInterpOne_getLast cd hne (xyz.map Point3.z)]
  rw [getD_map_point Point3.x xyz (cd.length - 1) 0 hjx,
      getD_map_point Point3.y xyz (cd.length - 1) 0 hjx,
      getD_map_point Point3.z xyz (cd.length - 1) 0 hjx]
  have hidx : cd.length - 1 = xyz.length - 1 := by rw [hlen]
  rw [hidx, getD_length_sub_one xyz Point3.origin hxne]

theorem interpolate_ensure_len_eq (xyz : List Point3) (cd : List ℚ) (n : ℕ)
    (hn : 2 ≤ n) (hne : cd ≠ []) (hlen : xyz.length = cd.length) :
    interpolate xyz cd (n : ℚ) INTER_ENSURE_LEN =
      Except.ok ((npLinspace (cd.headD 0) (cd.getLastD 0) n).map (interpPoint cd xyz)) := by
  have hp : pyInt (n : ℚ) = (n : ℤ) := pyInt_natCast n
  have hemp : cd.isEmpty = false := by simp [List.isEmpty_iff, hne]
  rw [interpolate, if_pos rfl]
  simp only [hp]
  rw [if_neg (by omega : ¬ ((n : ℤ) ≤ 1)), hemp, if_neg (by simp)]
  rw [if_neg (by simp [hlen]), Int.toNat_natCast]

theorem interpolate_meter_eq (xyz : List Point3) (cd : List ℚ) (step : ℚ)
    (hstep : 0 < step) (hne : cd ≠ []) (hlen : xyz.length = cd.length) :
    interpolate xyz cd step INTER_METER =
      Except.ok ((npArange (cd.headD 0) (cd.getLastD 0) step).map (interpPoint cd xyz)) := by
  have hemp : cd.isEmpty = false := by simp [List.isEmpty_iff, hne]
  rw [interpolate, if_neg (by decide : ¬ (INTER_METER = INTER_ENSURE_LEN)), if_pos rfl]
  rw [if_neg (not_le.mpr hstep), hemp, if_neg (by simp)]
  rw [if_neg (by simp [hlen])]

theorem zip3_length_eq (a b c : List ℚ) (n : ℕ)
    (ha : a.length = n) (hb : b.length = n) (hc : c.length = n) :
    (zip3 a b c).length = n := by
  induction a generalizing b c n with
  | nil =>
    cases b with
    | nil => cases c <;> simp_all [zip3]
    | cons y bs => simp at ha hb; omega
  | cons x as ih =>
    cases b with
    | nil => simp at ha hb; omega
    | cons y bs =>
      cases c with
      | nil => simp at ha hc; omega
      | cons z cs =>
        cases n with
        | zero => simp at ha
        | succ m =>
          simp only [zip3, List.length_cons]
          rw [ih bs cs m (by simpa using ha) (by simpa using hb) (by simpa using hc)]

theorem zip3_getD (a b c : List ℚ) (i : ℕ)
    (hia : i < a.length) (hib : i < b.length) (hic : i < c.length) :
    (zip3 a b c).getD i Point3.origin = ⟨a.getD i 0, b.getD i 0, c.getD i 0⟩ := by
  induction a generalizing b c i with
  | nil => simp at hia
  | cons x as ih =>
    cases b with
    | nil => simp at hib
    | cons y bs =>
      cases c with
      | nil => simp at hic
      | cons z cs =>
        cases i with
        | zero => simp [zip3]
        | succ k =>
          simp only [zip3, List.getD_cons_succ]
          exact ih bs cs k (by simpa using Nat.lt_of_succ_lt_succ hia)
            (by simpa using Nat.lt_of_succ_lt_succ hib)
            (by simpa using Nat.lt_of_succ_lt_succ hic)

theorem sum_map_cast_div100 (t : List ℤ) :
    (t.map (fun (v : ℤ) => (v : ℚ) / 100)).sum = ((t.sum : ℤ) : ℚ) / 100 := by
  induction t with
  | nil => simp
  | cons v rest ih =>
    simp only [List.map_cons, List.sum_cons, ih]
    push_cast
    ring

theorem diffs_length (xyz : List Point3) : (diffs xyz).length = xyz.length - 1 := by
  rw [diffs, List.length_map, List.length_zip, List.length_tail]
  omega

theorem cumDistOf_ne_nil (norm3 : Point3 → ℚ) (xyz : List Point3) :
    cumDistOf norm3 xyz ≠ [] := by
  rw [cumDistOf]
  exact List.cons_ne_nil 0 _

theorem cumDistOf_length (norm3 : Point3 → ℚ) (xyz : List Point3) (h : 1 ≤ xyz.length) :
    (cumDistOf norm3 xyz).length = xyz.length := by
  rw [cumDistOf, List.length_cons, cumsum_length, List.length_map, diffs_length]
  omega

theorem get_lane_meter_aux (norm3 : Point3 → ℚ) (L R : List Point3) (step : ℚ)
    (hL : 1 ≤ L.length) (hR : 1 ≤ R.length) (hmax : 2 ≤ max L.length R.length)
    (hstep : 0 < step) :
    get_lane_as_interpolation norm3 L R step INTER_METER =
      Except.ok
        ⟨(npArange ((cumDistOf norm3 L).headD 0) ((cumDistOf norm3 L).getLastD 0) step).map
            (interpPoint (cumDistOf norm3 L) L),
         (npArange ((cumDistOf norm3 R).headD 0) ((cumDistOf norm3 R).getLastD 0) step).map
            (interpPoint (cumDistOf norm3 R) R),
         List.zipWith Point3.avg
           ((npLinspace ((cumDistOf norm3 L).headD 0) ((cumDistOf norm3 L).getLastD 0)
               (max L.length R.length)).map (interpPoint (cumDistOf norm3 L) L))
           ((npLinspace ((cumDistOf norm3 R).headD 0) ((cumDistOf norm3 R).getLastD 0)
               (max L.length R.length)).map (interpPoint (cumDistOf norm3 R) R))⟩ := by
  have hLlen : L.length = (cumDistOf norm3 L).length := (cumDistOf_length norm3 L hL).symm
  have hRlen : R.length = (cumDistOf norm3 R).length := (cumDistOf_length norm3 R hR).symm
  have h1 := interpolate_meter_eq L (cumDistOf norm3 L) step hstep (cumDistOf_ne_nil norm3 L) hLlen
  have h2 := interpolate_meter_eq R (cumDistOf norm3 R) step hstep (cumDistOf_ne_nil norm3 R) hRlen
  have h3 := interpolate_ensure_len_eq L (cumDistOf norm3 L) (max L.length R.length) hmax
    (cumDistOf_ne_nil norm3 L) hLlen
  have h4 := interpolate_ensure_len_eq R (cumDistOf norm3 R) (max L.length R.length) hmax
    (cumDistOf_ne_nil norm3 R) hRlen
  simp only [get_lane_as_interpolation, h1, h2, h3, h4]
  rfl

theorem pyListGet_spec (l : List MapElement) (i : ℤ) :
    (pyListGet l i = Except.error GetErr.indexError ↔
      i < -(l.length : ℤ) ∨ (l.length : ℤ) ≤ i) ∧
    (0 ≤ i → i < (l.length : ℤ) → pyListGet l i = Except.ok (l.getD i.toNat dfltEl)) := by
  by_cases hi : i < 0
  · simp only [pyListGet, if_pos hi]
    by_cases hin : 0 ≤ (l.length : ℤ) + i ∧ (l.length : ℤ) + i < (l.length : ℤ)
    · have hlt : ((l.length : ℤ) + i).toNat < l.length := by omega
      rw [if_pos hin, List.getElem?_eq_getElem hlt]
      constructor
      · constructor
        · intro h
          simp at h
        · intro h
          exfalso
          rcases h with h | h <;> omega
      · intro h0
        exfalso
        omega
    · rw [if_neg hin]
      constructor
      · constructor
        · intro _
          omega
        · intro _
          rfl
      · intro h0
        exfalso
        omega
  · simp only [pyListGet, if_neg hi]
    by_cases hin : 0 ≤ i ∧ i < (l.length : ℤ)
    · have hlt : i.toNat < l.length := by omega
      rw [if_pos hin, List.getElem?_eq_getElem hlt]
      constructor
      · constructor
        · intro h
          simp at h
        · intro h
          exfalso
          rcases h with h | h <;> omega
      · intro h0 h1
        rw [List.getD_eq_getElem?_getD, List.getElem?_eq_getElem hlt]
        rfl
    · rw [if_neg hin]
      constructor
      · constructor
        · intro _
          omega
        · intro _
          rfl
      · intro h0 h1
        exact absurd (And.intro h0 h1) hin

/-
  Claim theorems.
-/

/-- C5: for every polyline, every non-decreasing cumulative-distance array of
the same length and every `step > 0`, resampling with `FIXED_STEP_METERS`
(`INTER_METER`) produces exactly the sample positions
`np.arange(cum_dist[0], cum_dist[-1], step)`, and every such sample position
lies in the half-open interval `[cum_dist[0], cum_dist[-1])`, so no
extrapolation beyond the original endpoints occurs.  (The polyline must be
non-empty for the sampling to be reached: `cum_dist[0]` on an empty array
raises `IndexError` first; in the source every decoded polyline is
non-empty.) -/
theorem c5_fixed_step_range (xyz : List Point3) (cd : List ℚ) (step : ℚ)
    (hlen : xyz.length = cd.length) (hne : cd ≠ [])
    (hmono : cd.Pairwise (fun a b => a ≤ b)) (hstep : 0 < step) :
    interpolate xyz cd step INTER_METER =
      Except.ok ((npArange (cd.headD 0) (cd.getLastD 0) step).map (interpPoint cd xyz)) ∧
    ∀ p ∈ npArange (cd.headD 0) (cd.getLastD 0) step,
      cd.headD 0 ≤ p ∧ p < cd.getLastD 0 := by
  refine ⟨interpolate_meter_eq xyz cd step hstep hne hlen, ?_⟩
  intro p hp
  exact npArange_mem _ _ _ hstep p hp

/-- Witness for C5 at a concrete two-point polyline with `step = 2`. -/
theorem c5_fixed_step_range_witness :
    (0 : ℚ) < 2 ∧
    (interpolate [⟨0, 0, 0⟩, ⟨3, 0, 0⟩] [0, 3] 2 INTER_METER =
      Except.ok ((npArange 0 3 2).map (interpPoint [0, 3] [⟨0, 0, 0⟩, ⟨3, 0, 0⟩])) ∧
    ∀ p ∈ npArange 0 3 2, (0 : ℚ) ≤ p ∧ p < 3) :=
  ⟨by decide,
   c5_fixed_step_range [⟨0, 0, 0⟩, ⟨3, 0, 0⟩] [0, 3] 2 rfl (by decide) (by decide) (by decide)⟩

/-- C7: calling `interpolate` with a method value that is neither
`INTER_METER` (`FIXED_STEP_METERS`) nor `INTER_ENSURE_LEN` (`FIXED_COUNT`)
raises `NotImplementedError` (the spec's `UnsupportedMethodError`);
`INTER_ENSURE_LEN` raises an assertion failure when the truncated integer
count is below 2, and `INTER_METER` raises an assertion failure when
`step ≤ 0`. -/
theorem c7_method_errors :
    (∀ (xyz : List Point3) (cd : List ℚ) (step : ℚ) (m : ℤ),
      m ≠ INTER_METER → m ≠ INTER_ENSURE_LEN →
      interpolate xyz cd step m = Except.error InterpErr.notImplementedError) ∧
    (∀ (xyz : List Point3) (cd : List ℚ) (step : ℚ), pyInt step ≤ 1 →
      interpolate xyz cd step INTER_ENSURE_LEN = Except.error InterpErr.assertionError) ∧
    (∀ (xyz : List Point3) (cd : List ℚ) (step : ℚ), step ≤ 0 →
      interpolate xyz cd step INTER_METER = Except.error InterpErr.assertionError) := by
  refine ⟨?_, ?_, ?_⟩
  · intro xyz cd step m hm0 hm1
    rw [interpolate, if_neg hm1, if_neg hm0]
  · intro xyz cd step h
    rw [interpolate, if_pos rfl]
    simp only [if_pos h]
  · intro xyz cd step h
    rw [interpolate, if_neg (by decide : ¬ (INTER_METER = INTER_ENSURE_LEN)), if_pos rfl,
      if_pos h]

/-- Witness for C7: method value 5 is unsupported; `int(1) = 1 < 2` fails
the `INTER_ENSURE_LEN` assertion; `step = 0` fails the `INTER_METER`
assertion. -/
theorem c7_method_errors_witness :
    interpolate [] [] 1 5 = Except.error InterpErr.notImplementedError ∧
    interpolate [] [] 1 INTER_ENSURE_LEN = Except.error InterpErr.assertionError ∧
    interpolate [] [] 0 INTER_METER = Except.error InterpErr.assertionError :=
  ⟨c7_method_errors.1 [] [] 1 5 (by decide) (by decide),
   c7_method_errors.2.1 [] [] 1 (by decide),
   c7_method_errors.2.2 [] [] 0 (by decide)⟩

/-- C9: `is_lane` and `is_crosswalk` are mutually exclusive: `is_lane` holds
exactly on the `lane` payload variant, `is_crosswalk` exactly on the
`traffic_control_element` variant carrying the pedestrian-crosswalk
sub-message and a non-empty polygon delta sequence; an element carries
exactly one payload variant by construction of the oneof. -/
theorem c9_lane_crosswalk_exclusive (e : MapElement) :
    (¬ (is_lane e = true ∧ is_crosswalk e = true)) ∧
    (is_lane e = true ↔ ∃ l, e.element = ElementPayload.lane l) ∧
    (is_crosswalk e = true ↔ ∃ t, e.element = ElementPayload.trafficControlElement t ∧
      t.pedestrian_crosswalk = true ∧ t.points_x_deltas_cm ≠ []) := by
  obtain ⟨i, p⟩ := e
  cases p <;> simp [is_lane, is_crosswalk, List.isEmpty_iff]

/-- Witness for C9 at concrete elements: the lane element is a lane and not
a crosswalk; mutual exclusion holds at the traffic-control element too. -/
theorem c9_lane_crosswalk_exclusive_witness :
    (¬ (is_lane laneEl = true ∧ is_crosswalk laneEl = true)) ∧
    (¬ (is_lane tceEl = true ∧ is_crosswalk tceEl = true)) :=
  ⟨(c9_lane_crosswalk_exclusive laneEl).1, (c9_lane_crosswalk_exclusive tceEl).1⟩

/-- C2 counterexample: the claim demands that the delta decoder fail with
`ShapeError` whenever `dx`, `dy`, `dz` do not all have equal length at
least 1.  At the concrete input `dx = dy = dz = []` (equal lengths 0,
violating the claimed precondition) the source raises nothing: the numpy
pipeline runs elementwise on empty arrays and the call returns an empty
coordinate array. -/
theorem c2_unpack_counterexample :
    unpack_deltas_cm (fun _ _ p => p) [] [] [] ⟨⟨0, 0⟩⟩ = Except.ok [] := by rfl

/-- C2 (amended): `unpack_deltas_cm` performs no shape validation and never
raises a `ShapeError`; for all inputs with equal lengths (any length,
including 0) it succeeds and returns one point per input delta.  Length
mismatches are surfaced, if at all, only by downstream numpy
broadcasting/stacking as a generic `ValueError`. -/
theorem c2_unpack_amended (W : ℚ → ℚ → Point3 → Point3) (dx dy dz : List ℤ)
    (frame : GeoFrame) (hxy : dx.length = dy.length) (hyz : dy.length = dz.length) :
    ∃ pts, unpack_deltas_cm W dx dy dz frame = Except.ok pts ∧
      pts.length = dx.length := by
  have heq : unpack_deltas_cm W dx dy dz frame =
      Except.ok ((zip3 (cumsum (dx.map (fun (v : ℤ) => (v : ℚ) / 100)))
          (cumsum (dy.map (fun (v : ℤ) => (v : ℚ) / 100)))
          (cumsum (dz.map (fun (v : ℤ) => (v : ℚ) / 100)))).map
        (W (undo_e7 ((frame.origin.lat_e7 : ℚ)))
          (undo_e7 ((frame.origin.lng_e7 : ℚ))))) := by
    rw [unpack_deltas_cm, if_pos ⟨hxy, hyz⟩]
  refine ⟨_, heq, ?_⟩
  rw [List.length_map,
    zip3_length_eq _ _ _ dx.length (by rw [cumsum_length, List.length_map])
      (by rw [cumsum_length, List.length_map, hxy])
      (by rw [cumsum_length, List.length_map, hxy, hyz])]

/-- Witness for C2 (amended) at equal-length singleton inputs. -/
theorem c2_unpack_amended_witness :
    ∃ pts, unpack_deltas_cm (fun _ _ p => p) [1] [2] [3] ⟨⟨0, 0⟩⟩ = Except.ok pts ∧
      pts.length = 1 :=
  c2_unpack_amended (fun _ _ p => p) [1] [2] [3] ⟨⟨0, 0⟩⟩ rfl rfl

/-- C6: for every valid input with `dx`, `dy`, `dz` of equal length
`n ≥ 1`, the delta decoder returns exactly `n` points, and the local
tangent-plane coordinate handed to the ENU-to-world conversion for the
`i`-th point is, on each axis, the sum of the first `i + 1` deltas of that
axis divided by 100 (centimeters to meters); in particular the first
cumulative value is the first delta itself, scaled. -/
theorem c6_unpack_cumsum (W : ℚ → ℚ → Point3 → Point3) (dx dy dz : List ℤ)
    (frame : GeoFrame) (n : ℕ)
    (hx : dx.length = n) (hy : dy.length = n) (hz : dz.length = n) (hn : 1 ≤ n) :
    ∃ pts, unpack_deltas_cm W dx dy dz frame = Except.ok pts ∧ pts.length = n ∧
      ∀ i, i < n → pts.getD i Point3.origin =
        W (undo_e7 ((frame.origin.lat_e7 : ℚ))) (undo_e7 ((frame.origin.lng_e7 : ℚ)))
          ⟨(((dx.take (i + 1)).sum : ℤ) : ℚ) / 100,
           (((dy.take (i + 1)).sum : ℤ) : ℚ) / 100,
           (((dz.take (i + 1)).sum : ℤ) : ℚ) / 100⟩ := by
  have hxl : (cumsum (dx.map (fun (v : ℤ) => (v : ℚ) / 100))).length = n := by
    rw [cumsum_length, List.length_map, hx]
  have hyl : (cumsum (dy.map (fun (v : ℤ) => (v : ℚ) / 100))).length = n := by
    rw [cumsum_length, List.length_map, hy]
  have hzl : (cumsum (dz.map (fun (v : ℤ) => (v : ℚ) / 100))).length = n := by
    rw [cumsum_length, List.length_map, hz]
  have heq : unpack_deltas_cm W dx dy dz frame =
      Except.ok ((zip3 (cumsum (dx.map (fun (v : ℤ) => (v : ℚ) / 100)))
          (cumsum (dy.map (fun (v : ℤ) => (v : ℚ) / 100)))
          (cumsum (dz.map (fun (v : ℤ) => (v : ℚ) / 100)))).map
        (W (undo_e7 ((frame.origin.lat_e7 : ℚ)))
          (undo_e7 ((frame.origin.lng_e7 : ℚ))))) := by
    rw [unpack_deltas_cm, if_pos ⟨by omega, by omega⟩]
  refine ⟨_, heq, ?_, ?_⟩
  · rw [List.length_map, zip3_length_eq _ _ _ n hxl hyl hzl]
  · intro i hi
    have hiz : i < (zip3 (cumsum (dx.map (fun (v : ℤ) => (v : ℚ) / 100)))
        (cumsum (dy.map (fun (v : ℤ) => (v : ℚ) / 100)))
        (cumsum (dz.map (fun (v : ℤ) => (v : ℚ) / 100)))).length := by
      rw [zip3_length_eq _ _ _ n hxl hyl hzl]
      exact hi
    rw [getD_map _ _ i Point3.origin Point3.origin hiz]
    rw [zip3_getD _ _ _ i (by omega) (by omega) (by omega)]
    have hxc : (cumsum (dx.map (fun (v : ℤ) => (v : ℚ) / 100))).getD i 0 =
        (((dx.take (i + 1)).sum : ℤ) : ℚ) / 100 := by
      rw [cumsum_getD _ i (by rw [List.length_map, hx]; exact hi),
        ← List.map_take (fun (v : ℤ) => (v : ℚ) / 100) dx (i + 1),
        sum_map_cast_div100]
    have hyc : (cumsum (dy.map (fun (v : ℤ) => (v : ℚ) / 100))).getD i 0 =
        (((dy.take (i + 1)).sum : ℤ) : ℚ) / 100 := by
      rw [cumsum_getD _ i (by rw [List.length_map, hy]; exact hi),
        ← List.map_take (fun (v : ℤ) => (v : ℚ) / 100) dy (i + 1),
        sum_map_cast_div100]
    have hzc : (cumsum (dz.map (fun (v : ℤ) => (v : ℚ) / 100))).getD i 0 =
        (((dz.take (i + 1)).sum : ℤ) : ℚ) / 100 := by
      rw [cumsum_getD _ i (by rw [List.length_map, hz]; exact hi),
        ← List.map_take (fun (v : ℤ) => (v : ℚ) / 100) dz (i + 1),
        sum_map_cast_div100]
    rw [hxc, hyc, hzc]

/-- Witness for C6 at `dx = [100, 100]`, `dy = dz = [0, 0]` (two points,
one meter apart on the x axis): cumulative local coordinates are the
partial sums of the deltas divided by 100. -/
theorem c6_unpack_cumsum_witness :
    (1 : ℕ) ≤ 2 ∧
    ∃ pts, unpack_deltas_cm (fun _ _ p => p) [100, 100] [0, 0] [0, 0] ⟨⟨0, 0⟩⟩ =
        Except.ok pts ∧ pts.length = 2 ∧
      ∀ i, i < 2 → pts.getD i Point3.origin =
        ⟨(((([100, 100] : List ℤ).take (i + 1)).sum : ℤ) : ℚ) / 100,
         (((([0, 0] : List ℤ).take (i + 1)).sum : ℤ) : ℚ) / 100,
         (((([0, 0] : List ℤ).take (i + 1)).sum : ℤ) : ℚ) / 100⟩ :=
  ⟨by decide,
   c6_unpack_cumsum (fun _ _ p => p) [100, 100] [0, 0] [0, 0] ⟨⟨0, 0⟩⟩ 2
     rfl rfl rfl (by decide)⟩

/-- C8: `is_traffic_face_colour` propagates `KeyError` when the id is
absent from the lookup table; it returns `False` when the resolved element
does not carry a `traffic_control_element` payload; otherwise it returns
`True` exactly when at least one of the five directional face-presence
flags for the requested colour is set. -/
theorem c8_traffic_face (api : MapAPI) (eid : String) (colour : Colour) :
    (ids_to_el api eid = none →
      is_traffic_face_colour api eid colour = Except.error GetErr.keyError) ∧
    (∀ e, getByStr api eid = Except.ok e →
      ((∀ t, e.element ≠ ElementPayload.trafficControlElement t) →
        is_traffic_face_colour api eid colour = Except.ok false) ∧
      (∀ t, e.element = ElementPayload.trafficControlElement t →
        (is_traffic_face_colour api eid colour = Except.ok true ↔
          ((colourFaces t colour).face = true ∨
           (colourFaces t colour).left_arrow = true ∨
           (colourFaces t colour).right_arrow = true ∨
           (colourFaces t colour).upper_left_arrow = true ∨
           (colourFaces t colour).upper_right_arrow = true)))) := by
  constructor
  · intro hnone
    rw [is_traffic_face_colour, getByStr, hnone]
  · intro e he
    constructor
    · intro hnot
      cases hpe : e.element with
      | lane l => simp only [is_traffic_face_colour, he, hpe]
      | trafficControlElement t => exact absurd hpe (hnot t)
      | other => simp only [is_traffic_face_colour, he, hpe]
      | unset => simp only [is_traffic_face_colour, he, hpe]
    · intro t ht
      simp only [is_traffic_face_colour, he, ht]
      simp [Bool.or_eq_true, or_assoc]

/-- Witness for C8: an unknown id fails with `KeyError`; the concrete
traffic light `tl1` with a red face present tests true for red. -/
theorem c8_traffic_face_witness :
    is_traffic_face_colour sampleApi "unknown_id" Colour.red =
      Except.error GetErr.keyError ∧
    is_traffic_face_colour sampleApi "tl1" Colour.red = Except.ok true := by
  constructor
  · exact (c8_traffic_face sampleApi "unknown_id" Colour.red).1 (by decide)
  · exact (((c8_traffic_face sampleApi "tl1" Colour.red).2 tceEl rfl).2 tceData rfl).mpr
      (Or.inl rfl)

/-- C3 counterexample: the claim states that position lookup fails with
`IndexError` if and only if the position is outside `[0, len)`.  At the
concrete two-element index, the position `-1` is outside `[0, 2)` yet the
source's Python list indexing interprets it as the last element and
succeeds, returning the element at position 1. -/
theorem c3_getitem_counterexample :
    sampleApi.getItem (GetKey.pos (-1)) = Except.ok tceEl ∧
    ¬ (sampleApi.getItem (GetKey.pos (-1)) = Except.error GetErr.indexError) := by
  constructor
  · rfl
  · intro h
    rw [show sampleApi.getItem (GetKey.pos (-1)) = Except.ok tceEl from rfl] at h
    exact Except.noConfusion h

/-- C3 (amended): position lookup fails with `IndexError` if and only if
the position is outside `[-len, len)` (negative positions in `[-len, 0)`
index from the end, as Python lists do); positions in `[0, len)` return
the element at that position; a text identifier absent from the lookup
table fails with `KeyError`, and likewise a byte identifier whose decoded
text is absent (byte sequences that are not valid UTF-8 raise
`UnicodeDecodeError` before any lookup and are outside this embedding). -/
theorem c3_getitem_amended (api : MapAPI) (i : ℤ) (s : String) :
    (api.getItem (GetKey.pos i) = Except.error GetErr.indexError ↔
      i < -(api.elements.length : ℤ) ∨ (api.elements.length : ℤ) ≤ i) ∧
    (0 ≤ i → i < (api.elements.length : ℤ) →
      api.getItem (GetKey.pos i) = Except.ok (api.elements.getD i.toNat dfltEl)) ∧
    (ids_to_el api s = none →
      api.getItem (GetKey.strId s) = Except.error GetErr.keyError ∧
      api.getItem (GetKey.bytesId s) = Except.error GetErr.keyError) := by
  refine ⟨(pyListGet_spec api.elements i).1, (pyListGet_spec api.elements i).2, ?_⟩
  intro hnone
  constructor
  · show getByStr api s = Except.error GetErr.keyError
    rw [getByStr, hnone]
  · show getByStr api s = Except.error GetErr.keyError
    rw [getByStr, hnone]

/-- Witness for C3 (amended): position 0 returns the first element, and the
absent identifier `absent` fails with `KeyError` through both the text and
the byte form. -/
theorem c3_getitem_amended_witness :
    sampleApi.getItem (GetKey.pos 0) =
      Except.ok (sampleApi.elements.getD ((0 : ℤ)).toNat dfltEl) ∧
    (sampleApi.getItem (GetKey.strId "absent") = Except.error GetErr.keyError ∧
     sampleApi.getItem (GetKey.bytesId "absent") = Except.error GetErr.keyError) :=
  ⟨(c3_getitem_amended sampleApi 0 "absent").2.1 (by decide) (by decide),
   (c3_getitem_amended sampleApi 0 "absent").2.2 (by decide)⟩

/-- C4 counterexample: the claim quantifies over every non-decreasing
cumulative-distance array and asserts that the first returned point equals
the original first point.  With the polyline
`[(0,0,0), (1,0,0), (2,0,0)]` and the non-decreasing cumulative distances
`[0, 0, 5]` (duplicated first knot) and count 2, `np.interp` resolves the
sample position `0` to the LAST knot with value `0` (numpy's binary search
returns the largest index `j` with `xp[j] ≤ x`, and the exact-hit rule
returns `fp[j]`), so the first returned point is `(1,0,0)`, not the
original first point `(0,0,0)`. -/
theorem c4_fixed_count_counterexample :
    interpolate [⟨0, 0, 0⟩, ⟨1, 0, 0⟩, ⟨2, 0, 0⟩] [0, 0, 5] 2 INTER_ENSURE_LEN =
      Except.ok [⟨1, 0, 0⟩, ⟨2, 0, 0⟩] ∧
    (⟨1, 0, 0⟩ : Point3) ≠
      ([⟨0, 0, 0⟩, ⟨1, 0, 0⟩, ⟨2, 0, 0⟩] : List Point3).headD Point3.origin := by
  have hstep : interpolate [⟨0, 0, 0⟩, ⟨1, 0, 0⟩, ⟨2, 0, 0⟩] ([0, 0, 5] : List ℚ)
      ((2 : ℕ) : ℚ) INTER_ENSURE_LEN =
      Except.ok ((npLinspace (([0, 0, 5] : List ℚ).headD 0)
        (([0, 0, 5] : List ℚ).getLastD 0) 2).map
          (interpPoint [0, 0, 5] [⟨0, 0, 0⟩, ⟨1, 0, 0⟩, ⟨2, 0, 0⟩])) :=
    interpolate_ensure_len_eq _ _ 2 le_rfl (by simp) rfl
  have hls : npLinspace (0 : ℚ) 5 2 = [0, 5] := by
    norm_num [npLinspace, List.range_succ]
  have hll0 : largestLE [0, 0, 5] (0 : ℚ) = some 1 := by
    norm_num [largestLE]
  have hll5 : largestLE [0, 0, 5] (5 : ℚ) = some 2 := by
    norm_num [largestLE]
  have h0 : interpPoint [0, 0, 5] [⟨0, 0, 0⟩, ⟨1, 0, 0⟩, ⟨2, 0, 0⟩] 0 = ⟨1, 0, 0⟩ := by
    simp [interpPoint, npInterpOne, hll0]
  have h5 : interpPoint [0, 0, 5] [⟨0, 0, 0⟩, ⟨1, 0, 0⟩, ⟨2, 0, 0⟩] 5 = ⟨2, 0, 0⟩ := by
    simp [interpPoint, npInterpOne, hll5]
  norm_num at hstep
  constructor
  · rw [hstep, hls]
    simp [h0, h5]
  · intro h
    have h2 : (1 : ℚ) = 0 := congrArg Point3.x h
    norm_num at h2

/-- C4 (amended): resampling with `FIXED_COUNT` (`INTER_ENSURE_LEN`) and
an integer count `n ≥ 2` on a non-empty polyline with a matching
non-decreasing cumulative-distance array returns exactly `n` points, the
sample positions being `np.linspace(cum_dist[0], cum_dist[-1], n)` (`n`
values evenly spaced inclusively between the first and last cumulative
distance); the last returned point always equals the original last point,
and the first returned point equals the original first point provided the
points at cumulative distance equal to `cum_dist[0]` agree with the first
point (in particular whenever `cum_dist` is strictly increasing, or is the
arc length of the polyline itself, where duplicate knots carry duplicate
points); with an inconsistent duplicated first knot `np.interp` instead
returns the value at the last duplicate. -/
theorem c4_fixed_count_amended (xyz : List Point3) (cd : List ℚ) (n : ℕ)
    (hlen : xyz.length = cd.length) (hne : cd ≠ [])
    (hmono : cd.Pairwise (fun a b => a ≤ b)) (hn : 2 ≤ n)
    (hcons : ∀ j, j < cd.length → cd.getD j 0 = cd.headD 0 →
      xyz.getD j Point3.origin = xyz.headD Point3.origin) :
    interpolate xyz cd (n : ℚ) INTER_ENSURE_LEN =
      Except.ok ((npLinspace (cd.headD 0) (cd.getLastD 0) n).map (interpPoint cd xyz)) ∧
    ((npLinspace (cd.headD 0) (cd.getLastD 0) n).map (interpPoint cd xyz)).length = n ∧
    ((npLinspace (cd.headD 0) (cd.getLastD 0) n).map (interpPoint cd xyz)).headD
      Point3.origin = xyz.headD Point3.origin ∧
    ((npLinspace (cd.headD 0) (cd.getLastD 0) n).map (interpPoint cd xyz)).getLastD
      Point3.origin = xyz.getLastD Point3.origin := by
  have hlsne : npLinspace (cd.headD 0) (cd.getLastD 0) n ≠ [] :=
    npLinspace_ne_nil _ _ n (by omega)
  refine ⟨interpolate_ensure_len_eq xyz cd n hn hne hlen, ?_, ?_, ?_⟩
  · rw [List.length_map, npLinspace_length]
  · rw [headD_map (interpPoint cd xyz) _ Point3.origin 0 hlsne,
      npLinspace_headD _ _ n (by omega)]
    exact interpPoint_headD cd xyz hmono hne hlen hcons
  · rw [getLastD_map (interpPoint cd xyz) _ Point3.origin 0 hlsne,
      npLinspace_getLastD _ _ n hn]
    exact interpPoint_getLastD cd xyz hne hlen

/-- Witness for C4 (amended) at the polyline `[(0,0,0), (2,0,0)]` with arc
lengths `[0, 2]` and count 2. -/
theorem c4_fixed_count_amended_witness :
    (2 : ℕ) ≤ 2 ∧
    (interpolate [⟨0, 0, 0⟩, ⟨2, 0, 0⟩] [0, 2] ((2 : ℕ) : ℚ) INTER_ENSURE_LEN =
      Except.ok ((npLinspace (([0, 2] : List ℚ).headD 0) (([0, 2] : List ℚ).getLastD 0) 2).map
        (interpPoint [0, 2] [⟨0, 0, 0⟩, ⟨2, 0, 0⟩])) ∧
    ((npLinspace (([0, 2] : List ℚ).headD 0) (([0, 2] : List ℚ).getLastD 0) 2).map
      (interpPoint [0, 2] [⟨0, 0, 0⟩, ⟨2, 0, 0⟩])).length = 2 ∧
    ((npLinspace (([0, 2] : List ℚ).headD 0) (([0, 2] : List ℚ).getLastD 0) 2).map
      (interpPoint [0, 2] [⟨0, 0, 0⟩, ⟨2, 0, 0⟩])).headD Point3.origin =
      ([⟨0, 0, 0⟩, ⟨2, 0, 0⟩] : List Point3).headD Point3.origin ∧
    ((npLinspace (([0, 2] : List ℚ).headD 0) (([0, 2] : List ℚ).getLastD 0) 2).map
      (interpPoint [0, 2] [⟨0, 0, 0⟩, ⟨2, 0, 0⟩])).getLastD Point3.origin =
      ([⟨0, 0, 0⟩, ⟨2, 0, 0⟩] : List Point3).getLastD Point3.origin) :=
  ⟨by decide,
   c4_fixed_count_amended [⟨0, 0, 0⟩, ⟨2, 0, 0⟩] [0, 2] 2 rfl (by decide) (by decide)
     (by decide) (by decide)⟩

/-- C1 counterexample: the claim states that under `FIXED_STEP_METERS` the
midlane is produced with a `FIXED_COUNT` equal to the larger of the two
STEP-RESAMPLED boundary lengths.  On the concrete lane `exL`/`exR` (two
points, boundaries 10 meters long) with `step = 1`, the step-resampled
boundaries have 10 points each, so the claim predicts a midlane of 10
points; the source instead uses `max(len(xyz_left), len(xyz_right))` on
the ORIGINAL (pre-resample) local arrays, giving `max(2, 2) = 2`, and the
returned midlane has 2 points. -/
theorem c1_midlane_counterexample :
    (get_lane_as_interpolation exNorm exL exR 1 INTER_METER).map
      (fun d => (d.xyz_left.length, d.xyz_right.length, d.midlane.length)) =
    Except.ok (10, 10, 2) ∧ (2 : ℕ) ≠ 10 := by
  have hcdL : cumDistOf exNorm exL = [0, 10] := by
    norm_num [cumDistOf, diffs, exL, exNorm, cumsum, cumsumFrom, Point3.sub]
  have hcdR : cumDistOf exNorm exR = [0, 10] := by
    norm_num [cumDistOf, diffs, exR, exNorm, cumsum, cumsumFrom, Point3.sub]
  have haux := get_lane_meter_aux exNorm exL exR 1 (by decide) (by decide) (by decide)
    (by norm_num)
  rw [hcdL, hcdR] at haux
  have hmax2 : max exL.length exR.length = 2 := by decide
  rw [hmax2] at haux
  have hlen10 : (npArange (([0, 10] : List ℚ).headD 0) (([0, 10] : List ℚ).getLastD 0)
      1).length = 10 := by
    show (npArange (0 : ℚ) 10 1).length = 10
    rw [npArange, List.length_map, List.length_range]
    rw [show ((10 : ℚ) - 0) / 1 = 10 by norm_num]
    decide
  refine ⟨?_, by decide⟩
  rw [haux]
  simp only [Except.map, List.length_map, List.length_zipWith, npLinspace_length, hlen10]
  rfl

/-- C1 (amended): under `FIXED_STEP_METERS` (`INTER_METER`), for every lane
whose decoded boundaries are non-empty with `max(n_left, n_right) ≥ 2` and
every `step > 0`, the returned `left`/`right` are the variable-length
step-resampled boundaries, while the midlane is obtained by re-resampling
the ORIGINAL (pre-step-resample) boundaries with `FIXED_COUNT` at a count
equal to the larger of the two ORIGINAL decoded boundary lengths, and
averaging the two count-matched boundaries pointwise. -/
theorem c1_midlane_amended (norm3 : Point3 → ℚ) (L R : List Point3) (step : ℚ)
    (hL : 1 ≤ L.length) (hR : 1 ≤ R.length) (hmax : 2 ≤ max L.length R.length)
    (hstep : 0 < step) :
    ∃ d,
      get_lane_as_interpolation norm3 L R step INTER_METER = Except.ok d ∧
      interpolate L (cumDistOf norm3 L) step INTER_METER = Except.ok d.xyz_left ∧
      interpolate R (cumDistOf norm3 R) step INTER_METER = Except.ok d.xyz_right ∧
      ∃ l2 r2,
        interpolate L (cumDistOf norm3 L) ((max L.length R.length : ℕ) : ℚ)
          INTER_ENSURE_LEN = Except.ok l2 ∧
        interpolate R (cumDistOf norm3 R) ((max L.length R.length : ℕ) : ℚ)
          INTER_ENSURE_LEN = Except.ok r2 ∧
        d.midlane = List.zipWith Point3.avg l2 r2 := by
  have hLlen : L.length = (cumDistOf norm3 L).length := (cumDistOf_length norm3 L hL).symm
  have hRlen : R.length = (cumDistOf norm3 R).length := (cumDistOf_length norm3 R hR).symm
  refine ⟨_, get_lane_meter_aux norm3 L R step hL hR hmax hstep,
    interpolate_meter_eq L (cumDistOf norm3 L) step hstep (cumDistOf_ne_nil norm3 L) hLlen,
    interpolate_meter_eq R (cumDistOf norm3 R) step hstep (cumDistOf_ne_nil norm3 R) hRlen,
    _, _,
    interpolate_ensure_len_eq L (cumDistOf norm3 L) (max L.length R.length) hmax
      (cumDistOf_ne_nil norm3 L) hLlen,
    interpolate_ensure_len_eq R (cumDistOf norm3 R) (max L.length R.length) hmax
      (cumDistOf_ne_nil norm3 R) hRlen,
    rfl⟩

/-- Witness for C1 (amended) on the concrete lane `exL`/`exR` with
`step = 2`. -/
theorem c1_midlane_amended_witness :
    (0 : ℚ) < 2 ∧
    (∃ d,
      get_lane_as_interpolation exNorm exL exR 2 INTER_METER = Except.ok d ∧
      interpolate exL (cumDistOf exNorm exL) 2 INTER_METER = Except.ok d.xyz_left ∧
      interpolate exR (cumDistOf exNorm exR) 2 INTER_METER = Except.ok d.xyz_right ∧
      ∃ l2 r2,
        interpolate exL (cumDistOf exNorm exL) ((max exL.length exR.length : ℕ) : ℚ)
          INTER_ENSURE_LEN = Except.ok l2 ∧
        interpolate exR (cumDistOf exNorm exR) ((max exL.length exR.length : ℕ) : ℚ)
          INTER_ENSURE_LEN = Except.ok r2 ∧
        d.midlane = List.zipWith Point3.avg l2 r2) :=
  ⟨by norm_num,
   c1_midlane_amended exNorm exL exR 2 (by decide) (by decide) (by decide) (by norm_num)⟩

/-- C10: under `FIXED_STEP_METERS` (`INTER_METER`), for every lane whose
decoded boundaries have `n_left, n_right ≥ 1` points with
`max(n_left, n_right) ≥ 2` (per the spec a boundary always decodes to at
least one point) and every `step > 0`, the call succeeds and the midlane
has exactly `max(n_left, n_right)` points, obtained by resampling the
original (pre-step-resample) boundaries to that fixed count with
`INTER_ENSURE_LEN` and averaging them pointwise. -/
theorem c10_midlane_fixed_count (norm3 : Point3 → ℚ) (L R : List Point3) (step : ℚ)
    (hL : 1 ≤ L.length) (hR : 1 ≤ R.length) (hmax : 2 ≤ max L.length R.length)
    (hstep : 0 < step) :
    ∃ d l2 r2,
      get_lane_as_interpolation norm3 L R step INTER_METER = Except.ok d ∧
      interpolate L (cumDistOf norm3 L) ((max L.length R.length : ℕ) : ℚ)
        INTER_ENSURE_LEN = Except.ok l2 ∧
      interpolate R (cumDistOf norm3 R) ((max L.length R.length : ℕ) : ℚ)
        INTER_ENSURE_LEN = Except.ok r2 ∧
      d.midlane = List.zipWith Point3.avg l2 r2 ∧
      d.midlane.length = max L.length R.length := by
  have hLlen : L.length = (cumDistOf norm3 L).length := (cumDistOf_length norm3 L hL).symm
  have hRlen : R.length = (cumDistOf norm3 R).length := (cumDistOf_length norm3 R hR).symm
  refine ⟨_, _, _, get_lane_meter_aux norm3 L R step hL hR hmax hstep,
    interpolate_ensure_len_eq L (cumDistOf norm3 L) (max L.length R.length) hmax
      (cumDistOf_ne_nil norm3 L) hLlen,
    interpolate_ensure_len_eq R (cumDistOf norm3 R) (max L.length R.length) hmax
      (cumDistOf_ne_nil norm3 R) hRlen,
    rfl, ?_⟩
  rw [List.length_zipWith, List.length_map, List.length_map, npLinspace_length,
    npLinspace_length]
  exact Nat.min_self _

/-- Witness for C10 on the concrete lane `exL`/`exR` with `step = 1`. -/
theorem c10_midlane_fixed_count_witness :
    (0 : ℚ) < 1 ∧
    (∃ d l2 r2,
      get_lane_as_interpolation exNorm exL exR 1 INTER_METER = Except.ok d ∧
      interpolate exL (cumDistOf exNorm exL) ((max exL.length exR.length : ℕ) : ℚ)
        INTER_ENSURE_LEN = Except.ok l2 ∧
      interpolate exR (cumDistOf exNorm exR) ((max exL.length exR.length : ℕ) : ℚ)
        INTER_ENSURE_LEN = Except.ok r2 ∧
      d.midlane = List.zipWith Point3.avg l2 r2 ∧
      d.midlane.length = max exL.length exR.length) :=
  ⟨by norm_num,
   c10_midlane_fixed_count exNorm exL exR 1 (by decide) (by decide) (by decide) (by norm_num)⟩
